import Mathlib

/-!
Verification of the discovery / search / download core of `aem.js`
(Universal Dynamic Asset Downloader).

The development shallowly embeds the relevant functions of `src/aem.js`:
JSON tree nodes become a `JSValue` type, JavaScript property access (which
throws on `null`/`undefined` bases) becomes `Except`, the crawl loops become
fuel-indexed recursions over an explicit worklist and processed set, and the
download engine becomes a pure function over an oracle describing what each
candidate-URL attempt would do.
-/

namespace Aem

/-- A JavaScript value as delivered by the JSON tree endpoint: `undefined`,
`null`, booleans, numbers, strings and objects (as association lists). -/
inductive JSValue where
  | undef
  | null
  | boolV (b : Bool)
  | numV (n : Int)
  | strV (s : String)
  | objV (fields : List (String × JSValue))

/-- JavaScript truthiness. -/
def truthy : JSValue → Bool
  | .undef => false
  | .null => false
  | .boolV b => b
  | .numV n => n != 0
  | .strV s => s != ""
  | .objV _ => true

/-- A value on which property access does not throw. -/
def nonNullish : JSValue → Bool
  | .undef => false
  | .null => false
  | _ => true

/-- `typeof v === 'object'` (true for `null` and objects). -/
def isObjectType : JSValue → Bool
  | .null => true
  | .objV _ => true
  | _ => false

/-- Strict equality `v === 's'` against a string literal. -/
def isStr : JSValue → String → Bool
  | .strV t, s => t == s
  | _, _ => false

/-- Property access that cannot throw (used for optional chaining `?.` and
for bases already known non-nullish); missing keys give `undefined`, and
primitives have no own properties in this model. -/
def getPropOpt : JSValue → String → JSValue
  | .objV fs, k => ((fs.find? (fun e => e.fst == k)).map Prod.snd).getD JSValue.undef
  | _, _ => JSValue.undef

/-- JavaScript property access `v[k]`: throws a `TypeError` when `v` is
`null` or `undefined`, otherwise behaves as `getPropOpt`. -/
def getProp (v : JSValue) (k : String) : Except String JSValue :=
  match v with
  | .undef => Except.error "TypeError: cannot read properties of undefined"
  | .null => Except.error "TypeError: cannot read properties of null"
  | _ => Except.ok (getPropOpt v k)

/-- Own fields of an object, `[]` for non-object primitives. -/
def objFields : JSValue → List (String × JSValue)
  | .objV fs => fs
  | _ => []

/-- `Object.keys(v)` (paired with the values): throws on `null`/`undefined`. -/
def objKeysE (v : JSValue) : Except String (List (String × JSValue)) :=
  match v with
  | .undef => Except.error "TypeError: Object.keys of undefined"
  | .null => Except.error "TypeError: Object.keys of null"
  | _ => Except.ok (objFields v)

/-- A short-circuiting `a || b || ... || dflt` chain over JS values. -/
def firstTruthyD (l : List JSValue) (dflt : JSValue) : JSValue :=
  match l with
  | [] => dflt
  | v :: rest => if truthy v then v else firstTruthyD rest dflt

/-- JavaScript `String(v)` coercion (objects abbreviated). -/
def jsToString : JSValue → String
  | .undef => "undefined"
  | .null => "null"
  | .boolV b => if b then "true" else "false"
  | .numV n => toString n
  | .strV s => s
  | .objV _ => "[object Object]"

/-- Value of the leading decimal digits of a character list. -/
def natOfDigits (cs : List Char) : Nat :=
  cs.foldl (fun a c => a * 10 + (c.toNat - ('0').toNat)) 0

/-- `parseInt(a) || parseInt(b) || ... || 0`: the first parse that is neither
`NaN` nor `0` wins, else `0`. -/
def firstNonzeroNum : List (Option Int) → Int
  | [] => 0
  | none :: rest => firstNonzeroNum rest
  | some n :: rest => if n = 0 then firstNonzeroNum rest else n

/-- List-of-characters prefix test (kernel-computable replacement for the
builtin string primitives, which do not reduce). -/
def isPrefixList : List Char → List Char → Bool
  | [], _ => true
  | _ :: _, [] => false
  | a :: as, b :: bs => a == b && isPrefixList as bs

/-- `s.startsWith(p)`. -/
def startsWithStr (s p : String) : Bool :=
  isPrefixList p.toList s.toList

/-- Substring occurrence over character lists. -/
def subListContains (needle : List Char) : List Char → Bool
  | [] => needle.isEmpty
  | c :: rest => isPrefixList needle (c :: rest) || subListContains needle rest

/-- `hay.includes(needle)` substring test. -/
def containsSubstr (hay needle : String) : Bool :=
  subListContains needle.toList hay.toList

/-- Split a character list on a separator character. -/
def splitListOn (sep : Char) : List Char → List (List Char)
  | [] => [[]]
  | c :: rest =>
    match splitListOn sep rest with
    | [] => [[c]]
    | h :: t => if c == sep then [] :: h :: t else (c :: h) :: t

/-- Lower-case a string. -/
def toLowerStr (s : String) : String :=
  String.mk (s.toList.map Char.toLower)

/-- Whitespace test for `trim`. -/
def isWsChar (c : Char) : Bool :=
  c == ' ' || c == '\t' || c == '\n' || c == '\r'

/-- `s.trim()`. -/
def trimStr (s : String) : String :=
  String.mk (((s.toList.dropWhile isWsChar).reverse.dropWhile isWsChar).reverse)

/-- `path.basename(p)`: the last `/`-separated component. -/
def basenameStr (p : String) : String :=
  String.mk ((splitListOn '/' p.toList).getLast!)

/-- `path.extname` on a basename: suffix from the last dot; empty when there
is no dot or the only dot is the leading character. -/
def extnameStr (b : String) : String :=
  let cs := b.toList
  let tailNoDot := cs.reverse.takeWhile (fun c => c != '.')
  if tailNoDot.length = cs.length then ""
  else if tailNoDot.length + 1 = cs.length then ""
  else String.mk ('.' :: tailNoDot.reverse)

/-- `path.basename(p, path.extname(p))`: basename with its extension cut. -/
def basenameNoExt (p : String) : String :=
  let bl := (basenameStr p).toList
  let el := (extnameStr (basenameStr p)).toList
  if el.length > 0 && el.length < bl.length && isPrefixList el.reverse bl.reverse then
    String.mk (bl.take (bl.length - el.length))
  else String.mk bl

/-- JavaScript `parseInt` on a value; `none` models `NaN`. -/
def parseIntJS : JSValue → Option Int
  | .numV n => some n
  | .strV s =>
    match (trimStr s).toList with
    | '-' :: rest =>
      let ds := rest.takeWhile (fun c => c.isDigit)
      if ds.isEmpty then none else some (-(Int.ofNat (natOfDigits ds)))
    | cs =>
      let ds := cs.takeWhile (fun c => c.isDigit)
      if ds.isEmpty then none else some (Int.ofNat (natOfDigits ds))
  | _ => none

/-- The content-shape part of `isAsset` (aem.js lines 977-982): a nested
`jcr:content` carrying `renditions`, or a `metadata` sub-node with a
`dam:size` or `dc:format` field. Property accesses follow JS semantics and
may throw, hence `Except`. -/
def hasContentSignalsE (item : JSValue) : Except String Bool :=
  (getProp item "jcr:content").bind fun c =>
  if truthy c then
    (getProp c "renditions").bind fun r =>
    if truthy r then Except.ok true
    else
      (getProp c "metadata").bind fun m =>
      if truthy m then
        (getProp m "dam:size").bind fun s =>
        if truthy s then Except.ok true
        else
          (getProp m "dc:format").bind fun f =>
          Except.ok (truthy f)
      else Except.ok false
  else Except.ok false

/-- `isAsset(item, primaryType)` from aem.js lines 973-983. -/
def isAssetE (item primaryType : JSValue) : Except String Bool :=
  if isStr primaryType "dam:Asset" then Except.ok true
  else if isStr primaryType "dam:AssetContent" then Except.ok true
  else hasContentSignalsE item

/-- `isFolder(primaryType)` from aem.js lines 988-994. -/
def isFolder (primaryType : JSValue) : Bool :=
  isStr primaryType "sling:Folder" ||
    isStr primaryType "sling:OrderedFolder" ||
    isStr primaryType "nt:folder" ||
    isStr primaryType "cq:Page" ||
    isStr primaryType "sling:Folder/nt:folder"

/-- `getMimeType(ext)` extension fallback table from aem.js lines 1147-1159. -/
def getMimeType (ext : String) : String :=
  match ext with
  | "jpg" => "image/jpeg"
  | "jpeg" => "image/jpeg"
  | "png" => "image/png"
  | "gif" => "image/gif"
  | "svg" => "image/svg+xml"
  | "webp" => "image/webp"
  | "bmp" => "image/bmp"
  | "ico" => "image/x-icon"
  | "pdf" => "application/pdf"
  | "mp4" => "video/mp4"
  | "mov" => "video/quicktime"
  | "avi" => "video/x-msvideo"
  | "doc" => "application/msword"
  | "docx" => "application/vnd.openxmlformats-officedocument.wordprocessingml.document"
  | "xls" => "application/vnd.ms-excel"
  | "xlsx" => "application/vnd.openxmlformats-officedocument.spreadsheetml.sheet"
  | "ppt" => "application/vnd.ms-powerpoint"
  | "pptx" => "application/vnd.openxmlformats-officedocument.presentationml.presentation"
  | "zip" => "application/zip"
  | "txt" => "text/plain"
  | "html" => "text/html"
  | "css" => "text/css"
  | "js" => "application/javascript"
  | "json" => "application/json"
  | "xml" => "text/xml"
  | _ => "application/octet-stream"

/-- The normalized record `extractAssetInfo` builds for one discovered asset
(aem.js lines 1046-1106). The raw-metadata map keeps JS values; optional
matcher-relevant fields are `none` exactly when the JS value is falsy. -/
structure AssetRecord where
  path : String
  name : String
  extension : String
  mimeType : String
  size : Int
  width : JSValue
  height : JSValue
  created : JSValue
  modified : JSValue
  title : Option String
  description : Option String
  keywords : Option String
  creator : JSValue
  copyright : JSValue
  tags : JSValue
  lastModifiedBy : JSValue
  renditions : List String
  metadata : List (String × JSValue)

/-- Overwriting assignment `m[k] = v` on the association-list metadata map. -/
def setKey (m : List (String × JSValue)) (k : String) (v : JSValue) :
    List (String × JSValue) :=
  (m.filter (fun e => e.fst != k)) ++ [(k, v)]

/-- One `Object.keys(src).forEach(...)` metadata-merge layer: copy every
field satisfying the filter into the accumulator, overwriting. -/
def metaFold (acc : List (String × JSValue)) (src : List (String × JSValue))
    (keep : String → JSValue → Bool) : List (String × JSValue) :=
  src.foldl (fun a kv => if keep kv.fst kv.snd then setKey a kv.fst kv.snd else a) acc

/-- Lookup `m[k]` in the merged metadata map (`undefined` when absent). -/
def getMeta (m : List (String × JSValue)) (k : String) : JSValue :=
  ((m.find? (fun e => e.fst == k)).map Prod.snd).getD JSValue.undef

/-- Filter used for the outer-node merge layer (aem.js lines 1014-1018). -/
def nodeLayerKeep (k : String) (v : JSValue) : Bool :=
  !(startsWithStr k "jcr:") && k != "jcr:content" && !(isObjectType v)

/-- Filter used for the `jcr:content` merge layer (aem.js lines 1021-1027). -/
def contentLayerKeep (k : String) (v : JSValue) : Bool :=
  !(startsWithStr k "jcr:") && k != "metadata" && k != "renditions" && !(isObjectType v)

/-- The body of `extractAssetInfo(assetNode, assetPath)` (aem.js lines
999-1115) before its `try/catch`. All property reads that JavaScript
performs on the raw node or its `jcr:content` are `Except`-sequenced up
front (they are the only operations that can throw; once the first read of
`assetNode` succeeds the node is non-nullish, so hoisting them preserves
the error behavior); the remaining computation is pure. -/
def extractAssetInfoE (assetNode : JSValue) (assetPath : String) :
    Except String AssetRecord :=
  (getProp assetNode "jcr:content").bind fun jc =>
  let jcrContent := if truthy jc then jc else assetNode
  (getProp jcrContent "metadata").bind fun m1 =>
  (getProp jcrContent "jcr:content").bind fun jc2 =>
  (getProp assetNode "metadata").bind fun m3 =>
  (objKeysE assetNode).bind fun nodeFields =>
  (getProp jcrContent "renditions").bind fun r1 =>
  (getProp assetNode "renditions").bind fun r2 =>
  (getProp assetNode "jcr:created").bind fun nCreated =>
  (getProp jcrContent "jcr:mimeType").bind fun cMime =>
  (getProp jcrContent "dam:size").bind fun cSize =>
  (getProp jcrContent "jcr:created").bind fun cCreated =>
  (getProp jcrContent "jcr:lastModified").bind fun cModified =>
  (getProp jcrContent "jcr:lastModifiedBy").bind fun cModBy =>
  let m2 := getPropOpt jc2 "metadata"
  let metaV := firstTruthyD [m1, m2, m3] (JSValue.objV [])
  let base := metaFold [] nodeFields nodeLayerKeep
  let layer2 := if truthy jc then metaFold base (objFields jcrContent) contentLayerKeep else base
  let am := metaFold layer2 (objFields metaV) (fun _ _ => true)
  let rendV := firstTruthyD [r1, r2] (JSValue.objV [])
  let name := basenameStr assetPath
  let ext0 := match (toLowerStr (extnameStr name)).toList with
    | [] => ""
    | _ :: t => String.mk t
  let extension := if ext0 = "" then "unknown" else ext0
  let downloadPath := if startsWithStr assetPath "/" then assetPath else "/" ++ assetPath
  let mimeV := firstTruthyD [getMeta am "dc:format", cMime, getMeta am "jcr:mimeType"] JSValue.undef
  let titleV := firstTruthyD [getMeta am "dc:title", getMeta am "jcr:title"] (JSValue.strV name)
  let descV := firstTruthyD [getMeta am "dc:description", getMeta am "jcr:description"] JSValue.undef
  let keyV := firstTruthyD [getMeta am "dc:subject", getMeta am "pdf:Keywords"] JSValue.undef
  Except.ok
    { path := downloadPath
      name := name
      extension := extension
      mimeType := if truthy mimeV then jsToString mimeV else getMimeType extension
      size := firstNonzeroNum
        [parseIntJS (getMeta am "dam:size"), parseIntJS cSize,
          parseIntJS (getMeta am "dam:Filedata.sizeOnDisk")]
      width := firstTruthyD
        [getMeta am "tiff:ImageWidth", getMeta am "exif:PixelXDimension",
          getMeta am "dam:Physicalwidthininches"] JSValue.undef
      height := firstTruthyD
        [getMeta am "tiff:ImageLength", getMeta am "exif:PixelYDimension",
          getMeta am "dam:Physicalheightininches"] JSValue.undef
      created := firstTruthyD [nCreated, cCreated, getMeta am "xmp:CreateDate"] JSValue.undef
      modified := firstTruthyD
        [cModified, getMeta am "jcr:lastModified", getMeta am "xmp:ModifyDate"] JSValue.undef
      title := if truthy titleV then some (jsToString titleV) else none
      description := if truthy descV then some (jsToString descV) else none
      keywords := if truthy keyV then some (jsToString keyV) else none
      creator := firstTruthyD
        [getMeta am "dc:creator", getMeta am "xmp:CreatorTool"] JSValue.undef
      copyright := firstTruthyD
        [getMeta am "dc:rights", getMeta am "xmpRights:WebStatement"] JSValue.undef
      tags := getMeta am "cq:tags"
      lastModifiedBy := firstTruthyD
        [getMeta am "jcr:lastModifiedBy", cModBy] JSValue.undef
      renditions := ((objFields rendV).map Prod.fst).filter
        (fun r => !(containsSubstr r "jcr:") && !(containsSubstr r "cq5dam.thumbnail"))
      metadata := am }

/-- `extractAssetInfo` as the traversal sees it: the `try/catch` wrapper
turns any structural exception into `null` (here `none`). -/
def extractAssetInfo (assetNode : JSValue) (assetPath : String) : Option AssetRecord :=
  (extractAssetInfoE assetNode assetPath).toOption

/-- Result of classifying one raw tree node inside the traversal loops:
an extracted record when the node was treated as an asset, and the node
path when it was treated as a folder to enqueue. -/
structure ClassifyResult where
  assetRec : Option AssetRecord
  folderPath : Option String

/-- The per-item classify-and-extract step shared by `processDAMData`
(aem.js lines 921-962) and `searchInDAMData` (lines 620-652): the
`isAsset` branch extracts a record, the independent `isFolder` branch
enqueues the path. -/
def classifyItem (item primaryType : JSValue) (itemPath : String) :
    Except String ClassifyResult :=
  (isAssetE item primaryType).bind fun a =>
  Except.ok
    { assetRec := if a then extractAssetInfo item itemPath else none
      folderPath := if isFolder primaryType then some itemPath else none }

theorem truthy_nonNullish {v : JSValue} (h : truthy v = true) : nonNullish v = true := by
  cases v <;> simp_all [truthy, nonNullish]

theorem getProp_ok (k : String) {v : JSValue} (h : nonNullish v = true) :
    getProp v k = Except.ok (getPropOpt v k) := by
  cases v <;> simp_all [getProp, nonNullish]

theorem objKeysE_ok {v : JSValue} (h : nonNullish v = true) :
    objKeysE v = Except.ok (objFields v) := by
  cases v <;> simp_all [objKeysE, nonNullish]

theorem hasContentSignalsE_total (item : JSValue) (h : truthy item = true) :
    ∃ b, hasContentSignalsE item = Except.ok b := by
  have hn := truthy_nonNullish h
  unfold hasContentSignalsE
  rw [getProp_ok _ hn]
  simp only [Except.bind]
  by_cases hc : truthy (getPropOpt item "jcr:content") = true
  · rw [if_pos hc, getProp_ok _ (truthy_nonNullish hc)]
    simp only [Except.bind]
    by_cases hr : truthy (getPropOpt (getPropOpt item "jcr:content") "renditions") = true
    · rw [if_pos hr]; exact ⟨_, rfl⟩
    · rw [if_neg hr, getProp_ok _ (truthy_nonNullish hc)]
      simp only [Except.bind]
      by_cases hm : truthy (getPropOpt (getPropOpt item "jcr:content") "metadata") = true
      · rw [if_pos hm, getProp_ok _ (truthy_nonNullish hm)]
        simp only [Except.bind]
        by_cases hs : truthy (getPropOpt (getPropOpt (getPropOpt item "jcr:content") "metadata") "dam:size") = true
        · rw [if_pos hs]; exact ⟨_, rfl⟩
        · rw [if_neg hs, getProp_ok _ (truthy_nonNullish hm)]
          simp only [Except.bind]
          exact ⟨_, rfl⟩
      · rw [if_neg hm]; exact ⟨_, rfl⟩
  · rw [if_neg hc]; exact ⟨_, rfl⟩

theorem isAssetE_total (item pt : JSValue) (h : truthy item = true) :
    ∃ b, isAssetE item pt = Except.ok b := by
  unfold isAssetE
  by_cases h1 : isStr pt "dam:Asset" = true
  · rw [if_pos h1]; exact ⟨_, rfl⟩
  · rw [if_neg h1]
    by_cases h2 : isStr pt "dam:AssetContent" = true
    · rw [if_pos h2]; exact ⟨_, rfl⟩
    · rw [if_neg h2]; exact hasContentSignalsE_total item h

theorem extractAssetInfoE_total (node : JSValue) (p : String) (h : truthy node = true) :
    ∃ r, extractAssetInfoE node p = Except.ok r := by
  have hn := truthy_nonNullish h
  have hjcr : nonNullish
      (if truthy (getPropOpt node "jcr:content") = true then getPropOpt node "jcr:content"
        else node) = true := by
    by_cases h' : truthy (getPropOpt node "jcr:content") = true
    · rw [if_pos h']; exact truthy_nonNullish h'
    · rw [if_neg h']; exact hn
  unfold extractAssetInfoE
  simp only [getProp_ok _ hn, getProp_ok _ hjcr, objKeysE_ok hn, Except.bind]
  exact ⟨_, rfl⟩

theorem isFolder_no_asset_tag {pt : JSValue} (h : isFolder pt = true) :
    isStr pt "dam:Asset" = false ∧ isStr pt "dam:AssetContent" = false := by
  cases pt <;> simp_all [isFolder, isStr]
  constructor <;> rintro rfl <;> revert h <;> decide

theorem isAssetE_of_folder {item pt : JSValue} (h : isFolder pt = true) :
    isAssetE item pt = hasContentSignalsE item := by
  obtain ⟨h1, h2⟩ := isFolder_no_asset_tag h
  unfold isAssetE
  rw [if_neg (by simp [h1]), if_neg (by simp [h2])]

/-- C9: for every truthy tree node, the classify-and-extract step returns
normally (never an exception); a structural error inside `extractAssetInfo`
yields `none` (skip) because of the `try/catch`; and a node lacking both
asset and folder signals is classified as Ignore (no record, no enqueue). -/
theorem classifyItem_total :
    (∀ (item pt : JSValue) (p : String), truthy item = true →
      ∃ v, classifyItem item pt p = Except.ok v) ∧
    (∀ (node : JSValue) (p : String) (e : String),
      extractAssetInfoE node p = Except.error e → extractAssetInfo node p = none) ∧
    (∀ (node : JSValue) (p : String), truthy node = true →
      ∃ r, extractAssetInfoE node p = Except.ok r) ∧
    (∀ (item pt : JSValue) (p : String), truthy item = true →
      isAssetE item pt = Except.ok false → isFolder pt = false →
      classifyItem item pt p = Except.ok ⟨none, none⟩) := by
  refine ⟨?_, ?_, ?_, ?_⟩
  · intro item pt p h
    obtain ⟨b, hb⟩ := isAssetE_total item pt h
    exact ⟨_, by unfold classifyItem; rw [hb]; rfl⟩
  · intro node p e he
    unfold extractAssetInfo
    rw [he]
    rfl
  · intro node p h
    exact extractAssetInfoE_total node p h
  · intro item pt p _ ha hf
    unfold classifyItem
    rw [ha]
    simp only [Except.bind, if_false, Bool.false_eq_true, hf, ite_false]

/-- C9 witness: a concrete well-formed node on which the classify step
returns normally. -/
theorem classifyItem_total_witness :
    ∃ v, classifyItem (JSValue.objV []) (JSValue.strV "nt:unstructured") "/content/dam/x"
      = Except.ok v :=
  classifyItem_total.1 (JSValue.objV []) (JSValue.strV "nt:unstructured") "/content/dam/x" rfl

/-- A concrete node that is simultaneously an asset (it carries a nested
renditions collection) and a folder (its declared type is `nt:folder`). -/
def dualItem : JSValue :=
  JSValue.objV [("jcr:content", JSValue.objV [("renditions", JSValue.objV [("original", JSValue.objV [])])])]

/-- The declared type of `dualItem`. -/
def dualType : JSValue := JSValue.strV "nt:folder"

/-- C4 counterexample: classification of `dualItem` extracts an asset record
AND enqueues the node path as a folder in the same pass, so the outcomes
Asset and Folder are not mutually exclusive. -/
theorem classifyItem_both_cex :
    (classifyItem dualItem dualType "/content/dam/folder1").toOption.map
      (fun r => (r.assetRec.isSome, r.folderPath.isSome)) = some (true, true) := rfl

/-- C4 amended: the asset and folder verdicts are computed independently; a
node is treated both as an asset and as a folder exactly when its declared
type is a container type and it also carries content-based asset signals
(nested renditions, or metadata with a size/format field). -/
theorem classifyItem_both_iff :
    ∀ (item pt : JSValue) (p : String), truthy item = true →
    ((∃ r, classifyItem item pt p = Except.ok r ∧
        r.assetRec.isSome = true ∧ r.folderPath.isSome = true) ↔
      (isFolder pt = true ∧ hasContentSignalsE item = Except.ok true)) := by
  intro item pt p h
  constructor
  · rintro ⟨r, hr, hA, hF⟩
    obtain ⟨b, hb⟩ := isAssetE_total item pt h
    unfold classifyItem at hr
    rw [hb] at hr
    simp only [Except.bind] at hr
    cases hr
    have hfold : isFolder pt = true := by
      by_cases hc : isFolder pt = true
      · exact hc
      · rw [if_neg hc] at hF
        simp at hF
    have hbt : b = true := by
      by_cases hc : b = true
      · exact hc
      · rw [if_neg hc] at hA
        simp at hA
    subst hbt
    rw [isAssetE_of_folder hfold] at hb
    exact ⟨hfold, hb⟩
  · rintro ⟨hF, hS⟩
    have hb : isAssetE item pt = Except.ok true := by
      rw [isAssetE_of_folder hF]; exact hS
    obtain ⟨r0, hr0⟩ := extractAssetInfoE_total item p h
    refine ⟨⟨extractAssetInfo item p, some p⟩, ?_, ?_, ?_⟩
    · unfold classifyItem
      rw [hb]
      simp only [Except.bind]
      simp [hF]
    · simp [extractAssetInfo, hr0, Except.toOption]
    · simp

/-- C4 amended witness: instantiating the equivalence on `dualItem`. -/
theorem classifyItem_both_iff_witness :
    ∃ r, classifyItem dualItem dualType "/content/dam/folder1" = Except.ok r ∧
      r.assetRec.isSome = true ∧ r.folderPath.isSome = true :=
  (classifyItem_both_iff dualItem dualType "/content/dam/folder1" rfl).mpr ⟨rfl, rfl⟩

/-- Number of non-system child keys of a structured response
(aem.js line 885): keys not starting with `jcr:` or `:`. -/
def nonSystemKeyCount (fs : List (String × JSValue)) : Nat :=
  ((fs.map Prod.fst).filter (fun k => !(startsWithStr k "jcr:") && !(startsWithStr k ":"))).length

/-- `nonSystemKeyCount` lifted to a picked response (0 for non-objects). -/
def nonSystemKeyCountV : JSValue → Nat
  | .objV fs => nonSystemKeyCount fs
  | _ => 0

/-- The ordered depth-hint suffixes probed by `scanFolder`
(aem.js lines 871-873). -/
def scanJsonDepths (smart : Bool) : List String :=
  if smart then [".1.json", ".json", ".2.json", ".3.json", ".4.json", ".5.json"]
  else [".1.json", ".json"]

/-- The ordered depth-hint suffixes probed by `searchInFolder`
(aem.js line 556). -/
def searchJsonDepths : List String :=
  [".1.json", ".json", ".2.json", ".3.json"]

/-- The probe-selection loop of `scanFolder` (aem.js lines 879-900) over the
sequence of probe outcomes (`none` = the request threw): counts non-system
keys of each structured response, keeps the response with the most, and
breaks once a response yields more than 50 items. -/
def scanFolderPickGo : List (Option JSValue) → Option JSValue → Nat → Option JSValue
  | [], best, _ => best
  | none :: rest, best, maxItems => scanFolderPickGo rest best maxItems
  | some data :: rest, best, maxItems =>
    match data with
    | .objV fs =>
      let itemCount := nonSystemKeyCount fs
      if itemCount > maxItems then
        if itemCount > 50 then some (JSValue.objV fs)
        else scanFolderPickGo rest (some (JSValue.objV fs)) itemCount
      else scanFolderPickGo rest best maxItems
    | _ => scanFolderPickGo rest best maxItems

/-- `scanFolder`'s selected response (`bestData`), given the probe outcomes. -/
def scanFolderPick (probes : List (Option JSValue)) : Option JSValue :=
  scanFolderPickGo probes none 0

/-- The probe-selection loop of `searchInFolder` (aem.js lines 559-571):
break on the first successful structured response. -/
def searchFolderPick : List (Option JSValue) → Option JSValue
  | [] => none
  | none :: rest => searchFolderPick rest
  | some data :: rest =>
    match data with
    | .objV fs => some (JSValue.objV fs)
    | _ => searchFolderPick rest

/-- The count of the picked response (0 when nothing was picked). -/
def pickCount : Option JSValue → Nat
  | none => 0
  | some v => nonSystemKeyCountV v

/-- Whether the discovery loop suspends after a folder fetch, as a function
of the `adaptiveDelay` flag and the running folder counter
(aem.js lines 841-843). -/
def discoveryDelayAt (adaptiveDelay : Bool) (foldersScanned : Nat) : Bool :=
  adaptiveDelay && (foldersScanned % 10 == 0)

/-- Whether the search loop suspends after a folder fetch
(aem.js lines 437-439 and 521-523). -/
def searchDelayAt (foldersScanned : Nat) : Bool :=
  foldersScanned % 5 == 0

theorem scanFolderPickGo_max :
    ∀ (probes : List (Option JSValue)) (best : Option JSValue) (maxItems : Nat),
    (∀ fs, some (JSValue.objV fs) ∈ probes → nonSystemKeyCount fs ≤ 50) →
    pickCount best = maxItems →
    maxItems ≤ pickCount (scanFolderPickGo probes best maxItems) ∧
    (∀ fs, some (JSValue.objV fs) ∈ probes →
      nonSystemKeyCount fs ≤ pickCount (scanFolderPickGo probes best maxItems)) ∧
    (scanFolderPickGo probes best maxItems = none → best = none) := by
  intro probes
  induction probes with
  | nil =>
    intro best maxItems _ hinv
    refine ⟨hinv.ge, ?_, fun h => h⟩
    intro fs hfs
    simp at hfs
  | cons hd rest ih =>
    intro best maxItems hcap hinv
    have hcap' : ∀ fs, some (JSValue.objV fs) ∈ rest → nonSystemKeyCount fs ≤ 50 :=
      fun fs hfs => hcap fs (List.mem_cons_of_mem _ hfs)
    cases hd with
    | none =>
      obtain ⟨h1, h2, h3⟩ := ih best maxItems hcap' hinv
      refine ⟨h1, ?_, h3⟩
      intro fs hfs
      rcases List.mem_cons.mp hfs with h | h
      · exact absurd h (by simp)
      · exact h2 fs h
    | some data =>
      cases data with
      | objV fs0 =>
        have hc0 : nonSystemKeyCount fs0 ≤ 50 := hcap fs0 (List.mem_cons_self _ _)
        by_cases hgt : nonSystemKeyCount fs0 > maxItems
        · have h38 : ¬ nonSystemKeyCount fs0 > 50 := by omega
          have hstep : scanFolderPickGo (some (JSValue.objV fs0) :: rest) best maxItems =
              scanFolderPickGo rest (some (JSValue.objV fs0)) (nonSystemKeyCount fs0) := by
            simp only [scanFolderPickGo, if_pos hgt, if_neg h38]
          obtain ⟨h1, h2, h3⟩ := ih (some (JSValue.objV fs0)) (nonSystemKeyCount fs0) hcap' rfl
          rw [hstep]
          refine ⟨by omega, ?_, ?_⟩
          · intro fs hfs
            rcases List.mem_cons.mp hfs with h | h
            · have : fs = fs0 := by simpa using h
              subst this
              exact h1
            · exact h2 fs h
          · intro h
            exact absurd (h3 h) (by simp)
        · have hstep : scanFolderPickGo (some (JSValue.objV fs0) :: rest) best maxItems =
              scanFolderPickGo rest best maxItems := by
            simp only [scanFolderPickGo, if_neg hgt]
          obtain ⟨h1, h2, h3⟩ := ih best maxItems hcap' hinv
          rw [hstep]
          refine ⟨h1, ?_, h3⟩
          intro fs hfs
          rcases List.mem_cons.mp hfs with h | h
          · have : fs = fs0 := by simpa using h
            subst this
            omega
          · exact h2 fs h
      | undef =>
        obtain ⟨h1, h2, h3⟩ := ih best maxItems hcap' hinv
        refine ⟨h1, ?_, h3⟩
        intro fs hfs
        rcases List.mem_cons.mp hfs with h | h
        · exact absurd h (by simp)
        · exact h2 fs h
      | null =>
        obtain ⟨h1, h2, h3⟩ := ih best maxItems hcap' hinv
        refine ⟨h1, ?_, h3⟩
        intro fs hfs
        rcases List.mem_cons.mp hfs with h | h
        · exact absurd h (by simp)
        · exact h2 fs h
      | boolV b =>
        obtain ⟨h1, h2, h3⟩ := ih best maxItems hcap' hinv
        refine ⟨h1, ?_, h3⟩
        intro fs hfs
        rcases List.mem_cons.mp hfs with h | h
        · exact absurd h (by simp)
        · exact h2 fs h
      | numV n =>
        obtain ⟨h1, h2, h3⟩ := ih best maxItems hcap' hinv
        refine ⟨h1, ?_, h3⟩
        intro fs hfs
        rcases List.mem_cons.mp hfs with h | h
        · exact absurd h (by simp)
        · exact h2 fs h
      | strV s =>
        obtain ⟨h1, h2, h3⟩ := ih best maxItems hcap' hinv
        refine ⟨h1, ?_, h3⟩
        intro fs hfs
        rcases List.mem_cons.mp hfs with h | h
        · exact absurd h (by simp)
        · exact h2 fs h

theorem scanFolderPickGo_break :
    ∀ (pre : List (Option JSValue)) (fs : List (String × JSValue))
      (rest : List (Option JSValue)) (best : Option JSValue) (maxItems : Nat),
    50 < nonSystemKeyCount fs → maxItems ≤ 50 →
    (∀ gs, some (JSValue.objV gs) ∈ pre → nonSystemKeyCount gs ≤ 50) →
    scanFolderPickGo (pre ++ some (JSValue.objV fs) :: rest) best maxItems =
      some (JSValue.objV fs) := by
  intro pre
  induction pre with
  | nil =>
    intro fs rest best maxItems hbig hmax _
    have hgt : nonSystemKeyCount fs > maxItems := by omega
    simp only [List.nil_append, scanFolderPickGo, if_pos hgt, if_pos hbig]
  | cons hd pre' ih =>
    intro fs rest best maxItems hbig hmax hcap
    have hcap' : ∀ gs, some (JSValue.objV gs) ∈ pre' → nonSystemKeyCount gs ≤ 50 :=
      fun gs hgs => hcap gs (List.mem_cons_of_mem _ hgs)
    cases hd with
    | none =>
      rw [List.cons_append]
      exact ih fs rest best maxItems hbig hmax hcap'
    | some data =>
      cases data with
      | objV gs0 =>
        have hg0 : nonSystemKeyCount gs0 ≤ 50 := hcap gs0 (List.mem_cons_self _ _)
        rw [List.cons_append]
        by_cases hgt : nonSystemKeyCount gs0 > maxItems
        · have h38 : ¬ nonSystemKeyCount gs0 > 50 := by omega
          have hstep : scanFolderPickGo
              (some (JSValue.objV gs0) :: (pre' ++ some (JSValue.objV fs) :: rest)) best maxItems =
              scanFolderPickGo (pre' ++ some (JSValue.objV fs) :: rest)
                (some (JSValue.objV gs0)) (nonSystemKeyCount gs0) := by
            simp only [scanFolderPickGo, if_pos hgt, if_neg h38]
          rw [hstep]
          exact ih fs rest _ _ hbig hg0 hcap'
        · have hstep : scanFolderPickGo
              (some (JSValue.objV gs0) :: (pre' ++ some (JSValue.objV fs) :: rest)) best maxItems =
              scanFolderPickGo (pre' ++ some (JSValue.objV fs) :: rest) best maxItems := by
            simp only [scanFolderPickGo, if_neg hgt]
          rw [hstep]
          exact ih fs rest best maxItems hbig hmax hcap'
      | undef =>
        rw [List.cons_append]
        exact ih fs rest best maxItems hbig hmax hcap'
      | null =>
        rw [List.cons_append]
        exact ih fs rest best maxItems hbig hmax hcap'
      | boolV b =>
        rw [List.cons_append]
        exact ih fs rest best maxItems hbig hmax hcap'
      | numV n =>
        rw [List.cons_append]
        exact ih fs rest best maxItems hbig hmax hcap'
      | strV s =>
        rw [List.cons_append]
        exact ih fs rest best maxItems hbig hmax hcap'

/-- C2 amended: discovery's `scanFolder` keeps the successful structured
response with the highest non-system key count, stopping early only once a
count exceeds 50; but `searchInFolder` (search mode) instead keeps the
FIRST successful structured response, skipping only failed probes, and it
probes a shorter depth-hint list. -/
theorem treeFetcher_probe_selection :
    (∀ (fs : List (String × JSValue)) (rest : List (Option JSValue)),
      searchFolderPick (some (JSValue.objV fs) :: rest) = some (JSValue.objV fs)) ∧
    (∀ rest, searchFolderPick (none :: rest) = searchFolderPick rest) ∧
    (∀ probes, (∀ fs, some (JSValue.objV fs) ∈ probes → nonSystemKeyCount fs ≤ 50) →
      ∀ fs, some (JSValue.objV fs) ∈ probes → 1 ≤ nonSystemKeyCount fs →
      ∃ b, scanFolderPick probes = some b ∧ nonSystemKeyCount fs ≤ nonSystemKeyCountV b) ∧
    (∀ (pre : List (Option JSValue)) (fs : List (String × JSValue))
        (rest : List (Option JSValue)),
      50 < nonSystemKeyCount fs →
      (∀ gs, some (JSValue.objV gs) ∈ pre → nonSystemKeyCount gs ≤ 50) →
      scanFolderPick (pre ++ some (JSValue.objV fs) :: rest) = some (JSValue.objV fs)) := by
  refine ⟨fun fs rest => rfl, fun rest => rfl, ?_, ?_⟩
  · intro probes hcap fs hfs hone
    obtain ⟨_, h2, h3⟩ := scanFolderPickGo_max probes none 0 hcap rfl
    have hge := h2 fs hfs
    cases hpick : scanFolderPickGo probes none 0 with
    | none =>
      rw [hpick] at hge
      simp [pickCount] at hge
      omega
    | some b =>
      rw [hpick] at hge
      exact ⟨b, hpick, hge⟩
  · intro pre fs rest hbig hcap
    exact scanFolderPickGo_break pre fs rest none 0 hbig (by omega) hcap

/-- Concrete probe outcomes: the first depth hint returns one non-system
child, the second returns three. -/
def probesEx : List (Option JSValue) :=
  [some (JSValue.objV [("a", JSValue.objV [])]),
    some (JSValue.objV [("b", JSValue.objV []), ("c", JSValue.objV []), ("d", JSValue.objV [])])]

/-- C2 counterexample: on the same probe outcomes, search-mode selection
keeps the first structured response (1 child) while discovery-mode
selection keeps the richest (3 children), and the two modes do not even
probe the same depth-hint list — so the search-mode subtree fetch does not
behave "identically" to the discovery one. -/
theorem searchFolderPick_not_best_cex :
    (searchFolderPick probesEx).map nonSystemKeyCountV = some 1 ∧
    (scanFolderPick probesEx).map nonSystemKeyCountV = some 3 ∧
    searchJsonDepths ≠ scanJsonDepths true := by
  refine ⟨rfl, rfl, by decide⟩

/-- C2 amended witness: the discovery selection applied to `probesEx` indeed
returns a response at least as rich as the three-child response. -/
theorem treeFetcher_probe_selection_witness :
    ∃ b, scanFolderPick probesEx = some b ∧
      nonSystemKeyCount [("b", JSValue.objV []), ("c", JSValue.objV []), ("d", JSValue.objV [])]
        ≤ nonSystemKeyCountV b :=
  treeFetcher_probe_selection.2.2.1 probesEx
    (by
      intro fs h
      simp only [probesEx, List.mem_cons, List.not_mem_nil, or_false,
        Option.some.injEq, JSValue.objV.injEq] at h
      rcases h with h | h <;> subst h <;> decide)
    [("b", JSValue.objV []), ("c", JSValue.objV []), ("d", JSValue.objV [])]
    (by simp [probesEx])
    (by decide)

/-- C3 counterexample: after the 5th folder fetch the search loop suspends
but the discovery loop does not (its cadence is 10, not 5), and with the
adaptivity flag off the discovery loop never suspends at all — so the two
loops do not share one unconditional cadence. -/
theorem politeness_cadence_cex :
    searchDelayAt 5 = true ∧ discoveryDelayAt true 5 = false ∧
      discoveryDelayAt false 10 = false ∧ discoveryDelayAt true 10 = true := by
  decide

/-- C3 amended: the search loops suspend after every 5th folder fetch
unconditionally, while the discovery loop suspends after every 10th folder
fetch and only when the `adaptiveDelay` flag is set. -/
theorem politeness_cadence :
    ∀ n : Nat, (searchDelayAt n = true ↔ n % 5 = 0) ∧
      (discoveryDelayAt true n = true ↔ n % 10 = 0) ∧
      discoveryDelayAt false n = false := by
  intro n
  refine ⟨?_, ?_, ?_⟩ <;> simp [searchDelayAt, discoveryDelayAt]

/-- The shared worklist loop of `discoverAllAssets` (aem.js lines 825-844)
and `findAssets` / `findMultipleAssets` (lines 418-440, 502-524): dequeue a
path; skip it if already in the processed set; otherwise add it to the
processed set FIRST, fetch/scan it (recorded in the returned visit list) and
enqueue its newly revealed child folders (which the scan pushes only when
not already processed — aem.js lines 951-953 and 643-646). `children`
abstracts which folder paths one scan reveals; `fuel` bounds the loop.
Returns the list of paths for which the subtree fetch was actually invoked,
in fetch order. -/
def crawl (children : String → List String) :
    Nat → List String → List String → List String → List String
  | 0, _, _, visited => visited.reverse
  | _ + 1, [], _, visited => visited.reverse
  | fuel + 1, p :: rest, processed, visited =>
    if p ∈ processed then crawl children fuel rest processed visited
    else
      crawl children fuel
        (rest ++ (children p).filter (fun c => !((p :: processed).contains c)))
        (p :: processed) (p :: visited)

theorem crawl_nodup_aux (children : String → List String) :
    ∀ (fuel : Nat) (queue processed visited : List String),
    visited.Nodup → (∀ v ∈ visited, v ∈ processed) →
    (crawl children fuel queue processed visited).Nodup := by
  intro fuel
  induction fuel with
  | zero =>
    intro queue processed visited hnd _
    simpa [crawl] using hnd
  | succ n ih =>
    intro queue processed visited hnd hsub
    cases queue with
    | nil => simpa [crawl] using hnd
    | cons p rest =>
      by_cases hp : p ∈ processed
      · rw [show crawl children (n + 1) (p :: rest) processed visited =
            crawl children n rest processed visited by simp [crawl, hp]]
        exact ih rest processed visited hnd hsub
      · rw [show crawl children (n + 1) (p :: rest) processed visited =
            crawl children n
              (rest ++ (children p).filter (fun c => !((p :: processed).contains c)))
              (p :: processed) (p :: visited) by simp [crawl, hp]]
        refine ih _ _ _ (List.nodup_cons.mpr ⟨fun hmem => hp (hsub p hmem), hnd⟩) ?_
        intro v hv
        rcases List.mem_cons.mp hv with h | h
        · exact List.mem_cons.mpr (Or.inl h)
        · exact List.mem_cons.mpr (Or.inr (hsub v h))

/-- C5: at-most-once visitation — within one crawl, no matter how often a
path gets enqueued onto the worklist (including duplicates already in the
initial queue and re-enqueues produced by scans), the subtree fetch is
invoked at most once per path, because a path joins the processed set at
dequeue time before any expansion. -/
theorem crawl_at_most_once :
    ∀ (children : String → List String) (fuel : Nat) (queue : List String),
    (crawl children fuel queue [] []).Nodup := by
  intro children fuel queue
  exact crawl_nodup_aux children fuel queue [] [] List.nodup_nil (by simp)

/-- One field check of `checkPatternMatch` (aem.js lines 710-753): the
candidate value together with its reported match reason. -/
def matchChecks (info : AssetRecord) : List (String × String) :=
  [(toLowerStr info.path, "Full path match"),
    (toLowerStr info.name, "Filename match"),
    (toLowerStr (basenameNoExt info.path), "Filename without extension match")] ++
  (match info.title with
    | some t => [(toLowerStr t, "Title match")]
    | none => []) ++
  (match info.description with
    | some d => [(toLowerStr d, "Description match")]
    | none => []) ++
  (match info.keywords with
    | some k => [(toLowerStr k, "Keywords match")]
    | none => [])

/-- `checkPatternMatch(assetInfo, pattern)` (aem.js lines 710-764): the
reason of the first matching field, then a per-path-segment fallback. -/
def checkPatternMatch (info : AssetRecord) (pattern : String) : Option String :=
  match (matchChecks info).find? (fun c => containsSubstr c.fst pattern) with
  | some c => some c.snd
  | none =>
    if (splitListOn '/' (toLowerStr info.path).toList).any
        (fun seg => subListContains pattern.toList seg) then
      some "Path segment match"
    else none

/-- The per-asset pattern loop of `searchInDAMDataMultiple` (aem.js lines
680-688): try the caller-supplied patterns in order; the first one that
matches any field wins, recording (reason, pattern); `break` prevents any
further pattern from being tested. -/
def matchAsset (info : AssetRecord) : List String → Option (String × String)
  | [] => none
  | p :: rest =>
    match checkPatternMatch info p with
    | some reason => some (reason, p)
    | none => matchAsset info rest

/-- What one asset node contributes to the `matches` list of
`searchInDAMDataMultiple`: the annotated record when some pattern matched,
nothing otherwise. -/
def searchAssetMultiple (info : AssetRecord) (patterns : List String) :
    List (AssetRecord × String × String) :=
  match matchAsset info patterns with
  | some rp => [(info, rp)]
  | none => []

/-- C8: multi-pattern search is first-pattern-wins and once-total — the
pattern loop of `searchInDAMDataMultiple` tests the caller's patterns in
order; a matching head pattern is recorded (with its reason) regardless of
later patterns; a non-matching head defers to the remaining patterns; any
recorded (reason, pattern) pair is the first pattern that matches, all
earlier patterns having matched nothing; and one asset node contributes at
most one entry to the match list even if several patterns would match. -/
theorem matcher_first_pattern_wins :
    (∀ (info : AssetRecord) (r p : String) (rest : List String),
      checkPatternMatch info p = some r → matchAsset info (p :: rest) = some (r, p)) ∧
    (∀ (info : AssetRecord) (p : String) (rest : List String),
      checkPatternMatch info p = none → matchAsset info (p :: rest) = matchAsset info rest) ∧
    (∀ (info : AssetRecord) (pats : List String) (r p : String),
      matchAsset info pats = some (r, p) →
      ∃ pre post, pats = pre ++ p :: post ∧
        (∀ q ∈ pre, checkPatternMatch info q = none) ∧
        checkPatternMatch info p = some r) ∧
    (∀ (info : AssetRecord) (pats : List String),
      (searchAssetMultiple info pats).length ≤ 1) := by
  refine ⟨?_, ?_, ?_, ?_⟩
  · intro info r p rest h
    simp [matchAsset, h]
  · intro info p rest h
    simp [matchAsset, h]
  · intro info pats
    induction pats with
    | nil => intro r p h; simp [matchAsset] at h
    | cons q rest ih =>
      intro r p h
      cases hq : checkPatternMatch info q with
      | some reason =>
        rw [show matchAsset info (q :: rest) = some (reason, q) by simp [matchAsset, hq]] at h
        obtain ⟨h1, h2⟩ : reason = r ∧ q = p := by
          constructor <;> [exact congrArg (fun o => (o.getD ("", "")).fst) h;
            exact congrArg (fun o => (o.getD ("", "")).snd) h]
        subst h1; subst h2
        exact ⟨[], rest, rfl, by simp, hq⟩
      | none =>
        rw [show matchAsset info (q :: rest) = matchAsset info rest by simp [matchAsset, hq]] at h
        obtain ⟨pre, post, he, hpre, hp⟩ := ih r p h
        refine ⟨q :: pre, post, by simp [he], ?_, hp⟩
        intro x hx
        rcases List.mem_cons.mp hx with h' | h'
        · rw [h']; exact hq
        · exact hpre x h'
  · intro info pats
    unfold searchAssetMultiple
    cases matchAsset info pats <;> simp

/-- The spec's own first-match-wins scenario: an asset whose name contains
"bar" while its path also contains "foo". -/
def exInfo : AssetRecord :=
  { path := "/content/dam/foo/burton-bar.jpeg"
    name := "burton-bar.jpeg"
    extension := "jpeg"
    mimeType := "image/jpeg"
    size := 0
    width := JSValue.undef
    height := JSValue.undef
    created := JSValue.undef
    modified := JSValue.undef
    title := none
    description := none
    keywords := none
    creator := JSValue.undef
    copyright := JSValue.undef
    tags := JSValue.undef
    lastModifiedBy := JSValue.undef
    renditions := []
    metadata := [] }

/-- C8 witness: with patterns `["foo", "bar"]`, the recorded matched pattern
for `exInfo` is "foo" (checked first, matching the full path), not "bar". -/
theorem matcher_first_pattern_wins_witness :
    matchAsset exInfo ["foo", "bar"] = some ("Full path match", "foo") :=
  matcher_first_pattern_wins.1 exInfo "Full path match" "foo" ["bar"] rfl

/-- What one candidate-URL attempt of `downloadAsset` would do (the network
and stream oracle for one URL of the `urlPatterns` loop, aem.js lines
1267-1294): the request itself fails before anything is written
(`netError`); the response stream is piped but errors after `written` bytes
reached the (truncated) output file (`writeError`); or the transfer
finishes with a file of `size` bytes (`completed` — size 0 is an empty
payload, which the loop does not accept but also does not treat as an
error). -/
inductive AttemptResult where
  | netError (msg : String)
  | writeError (written : Nat) (msg : String)
  | completed (size : Nat)
deriving DecidableEq

/-- Terminal per-asset outcome of `downloadAsset`. -/
inductive Outcome where
  | downloadedOk (size : Nat)
  | skippedExisting
  | failed (msg : String)
deriving DecidableEq

/-- The per-call increments `downloadAsset` applies to the global stats. -/
structure StatsDelta where
  downloaded : Nat
  skipped : Nat
  failedCount : Nat
  totalSize : Nat
  errors : List String
deriving DecidableEq

/-- State after running the candidate-URL loop: the file (if any) at the
output path with its size, the `lastError` variable, the size of a
successful transfer (`none` when every URL failed), and the number of
network fetches issued. -/
structure AttemptsOutcome where
  file : Option Nat
  lastErr : Option String
  got : Option Nat
  fetches : Nat
deriving DecidableEq

/-- The zero-byte cleanup in the catch block of the URL loop (aem.js lines
1290-1292): delete the output file iff it exists and has size exactly 0. -/
def cleanupZero : Option Nat → Option Nat
  | some 0 => none
  | f => f

/-- The candidate-URL loop of `downloadAsset` (aem.js lines 1267-1294):
each URL issues one fetch; on success the stream overwrites the output
file and, if non-empty, the loop breaks; an empty transfer just moves on;
on error `lastError` is recorded and an existing zero-byte output file is
deleted. -/
def runAttempts (file : Option Nat) (lastErr : Option String) :
    List AttemptResult → AttemptsOutcome
  | [] => ⟨file, lastErr, none, 0⟩
  | AttemptResult.netError m :: rest =>
    let r := runAttempts (cleanupZero file) (some m) rest
    ⟨r.file, r.lastErr, r.got, r.fetches + 1⟩
  | AttemptResult.writeError w m :: rest =>
    let r := runAttempts (cleanupZero (some w)) (some m) rest
    ⟨r.file, r.lastErr, r.got, r.fetches + 1⟩
  | AttemptResult.completed n :: rest =>
    if 0 < n then ⟨some n, lastErr, some n, 1⟩
    else
      let r := runAttempts (some 0) lastErr rest
      ⟨r.file, r.lastErr, r.got, r.fetches + 1⟩

/-- Full result of one `downloadAsset` call. -/
structure DownloadResult where
  outcome : Outcome
  file : Option Nat
  stats : StatsDelta
  fetches : Nat
deriving DecidableEq

/-- The post-skip part of `downloadAsset`: run the URL loop; if no URL
yields a non-empty transfer, the last error (or a generic message when no
URL errored) is thrown and caught, counting the asset as failed and
recording a structured error (aem.js lines 1296-1298, 1357-1364). After a
successful transfer (`downloadedAssets++` and `totalSize += n`, lines
1281-1282) the metadata-save phase runs when `downloadMetadata` is enabled
(lines 1301-1348); `metaSave` is its oracle: `none` when the re-stat and
`writeFileSync` succeed, `some e` when one of them throws — that exception
reaches the SAME outer catch, so the asset is additionally counted as
failed with the filesystem error `e`, on top of the already-bumped
download counter and byte total, and the call returns the failed outcome.
The rendition phase (lines 1351-1353) never throws (`downloadRenditions`
wraps each rendition in its own try/catch), so it has no effect here. -/
def attemptPhase (initFile : Option Nat) (attempts : List AttemptResult)
    (downloadMetadata : Bool) (metaSave : Option String) : DownloadResult :=
  match (runAttempts initFile none attempts).got with
  | some n =>
    if downloadMetadata then
      match metaSave with
      | some e =>
        ⟨Outcome.failed e, (runAttempts initFile none attempts).file, ⟨1, 0, 1, n, [e]⟩,
          (runAttempts initFile none attempts).fetches⟩
      | none =>
        ⟨Outcome.downloadedOk n, (runAttempts initFile none attempts).file, ⟨1, 0, 0, n, []⟩,
          (runAttempts initFile none attempts).fetches⟩
    else
      ⟨Outcome.downloadedOk n, (runAttempts initFile none attempts).file, ⟨1, 0, 0, n, []⟩,
        (runAttempts initFile none attempts).fetches⟩
  | none =>
    ⟨Outcome.failed
        ((runAttempts initFile none attempts).lastErr.getD "All download attempts failed"),
      (runAttempts initFile none attempts).file,
      ⟨0, 0, 1, 0,
        [(runAttempts initFile none attempts).lastErr.getD "All download attempts failed"]⟩,
      (runAttempts initFile none attempts).fetches⟩

/-- `downloadAsset(assetInfo)` (aem.js lines 1228-1366) over the oracle:
`initFile` is the size of a file already at the output path (if any),
`expected` is `assetInfo.size`, `attempts` describes what each candidate
URL would produce, `downloadMetadata` is the config flag (default true)
and `metaSave` the metadata-persistence oracle. The resume-skip check
(lines 1238-1252) skips when the expected size is known and within 1000
bytes of the existing size, or whenever the existing file exceeds 100
bytes. -/
def downloadAsset (initFile : Option Nat) (expected : Int) (attempts : List AttemptResult)
    (downloadMetadata : Bool) (metaSave : Option String) : DownloadResult :=
  match initFile with
  | some existingSize =>
    if 0 < expected ∧ ((existingSize : Int) - expected).natAbs < 1000 then
      ⟨Outcome.skippedExisting, some existingSize, ⟨0, 1, 0, 0, []⟩, 0⟩
    else if 100 < existingSize then
      ⟨Outcome.skippedExisting, some existingSize, ⟨0, 1, 0, 0, []⟩, 0⟩
    else attemptPhase (some existingSize) attempts downloadMetadata metaSave
  | none => attemptPhase none attempts downloadMetadata metaSave

/-- The resume-skip condition exactly as `downloadAsset` implements it. -/
def codeSkipCond : Option Nat → Int → Bool
  | none, _ => false
  | some sz, expected =>
    decide (0 < expected ∧ ((sz : Int) - expected).natAbs < 1000) || decide (100 < sz)

/-- Modelled from the spec: the resume-skip condition as the specification
words it — skip when (a) the expected size is known and within the
tolerance of the existing size, or (b) the expected size is unknown and the
existing file exceeds the minimal non-trivial size. Stated only to compare
against `codeSkipCond` / `downloadAsset`. -/
def specSkipCond : Option Nat → Int → Bool
  | none, _ => false
  | some sz, expected =>
    decide (0 < expected ∧ ((sz : Int) - expected).natAbs < 1000) ||
      decide (¬ 0 < expected ∧ 100 < sz)

/-- The last error message the URL loop would encounter across a whole
attempt list (empty transfers produce no error). -/
def lastErrorOf : List AttemptResult → Option String
  | [] => none
  | AttemptResult.netError m :: rest => some ((lastErrorOf rest).getD m)
  | AttemptResult.writeError _ m :: rest => some ((lastErrorOf rest).getD m)
  | AttemptResult.completed _ :: rest => lastErrorOf rest

theorem runAttempts_lastErr :
    ∀ (attempts : List AttemptResult) (file : Option Nat) (le : Option String),
    (runAttempts file le attempts).got = none →
    (runAttempts file le attempts).lastErr = (lastErrorOf attempts).or le := by
  intro attempts
  induction attempts with
  | nil => intro file le _; rfl
  | cons a rest ih =>
    intro file le hg
    cases a with
    | netError m =>
      have hg' : (runAttempts (cleanupZero file) (some m) rest).got = none := hg
      have := ih (cleanupZero file) (some m) hg'
      show (runAttempts (cleanupZero file) (some m) rest).lastErr = _
      rw [this]
      cases hrest : lastErrorOf rest <;> simp [lastErrorOf, hrest, Option.or]
    | writeError w m =>
      have hg' : (runAttempts (cleanupZero (some w)) (some m) rest).got = none := hg
      have := ih (cleanupZero (some w)) (some m) hg'
      show (runAttempts (cleanupZero (some w)) (some m) rest).lastErr = _
      rw [this]
      cases hrest : lastErrorOf rest <;> simp [lastErrorOf, hrest, Option.or]
    | completed n =>
      by_cases hn : 0 < n
      · exfalso
        have : (runAttempts file le (AttemptResult.completed n :: rest)).got = some n := by
          simp [runAttempts, hn]
        rw [this] at hg
        cases hg
      · have hstep : runAttempts file le (AttemptResult.completed n :: rest) =
            ⟨(runAttempts (some 0) le rest).file, (runAttempts (some 0) le rest).lastErr,
              (runAttempts (some 0) le rest).got, (runAttempts (some 0) le rest).fetches + 1⟩ := by
          simp [runAttempts, hn]
        rw [hstep] at hg ⊢
        have := ih (some 0) le hg
        rw [this]
        simp [lastErrorOf]

theorem runAttempts_lastErr_init {attempts : List AttemptResult} {f : Option Nat}
    (hg : (runAttempts f none attempts).got = none) :
    (runAttempts f none attempts).lastErr = lastErrorOf attempts := by
  rw [runAttempts_lastErr attempts f none hg]
  cases lastErrorOf attempts <;> simp [Option.or]

theorem attemptPhase_meta_fail {f : Option Nat} {attempts : List AttemptResult} {n : Nat}
    {e : String} (hg : (runAttempts f none attempts).got = some n) :
    attemptPhase f attempts true (some e) =
      ⟨Outcome.failed e, (runAttempts f none attempts).file, ⟨1, 0, 1, n, [e]⟩,
        (runAttempts f none attempts).fetches⟩ := by
  unfold attemptPhase
  rw [hg]
  rfl

theorem attemptPhase_transfer_ok {f : Option Nat} {attempts : List AttemptResult} {n : Nat}
    {dm : Bool} {ms : Option String} (hg : (runAttempts f none attempts).got = some n)
    (h : dm = false ∨ ms = none) :
    attemptPhase f attempts dm ms =
      ⟨Outcome.downloadedOk n, (runAttempts f none attempts).file, ⟨1, 0, 0, n, []⟩,
        (runAttempts f none attempts).fetches⟩ := by
  unfold attemptPhase
  rw [hg]
  rcases h with h | h
  · subst h
    rfl
  · subst h
    cases dm <;> rfl

theorem attemptPhase_got_none {f : Option Nat} {attempts : List AttemptResult}
    {dm : Bool} {ms : Option String} (hg : (runAttempts f none attempts).got = none) :
    attemptPhase f attempts dm ms =
      ⟨Outcome.failed ((runAttempts f none attempts).lastErr.getD "All download attempts failed"),
        (runAttempts f none attempts).file,
        ⟨0, 0, 1, 0, [(runAttempts f none attempts).lastErr.getD "All download attempts failed"]⟩,
        (runAttempts f none attempts).fetches⟩ := by
  unfold attemptPhase
  rw [hg]

theorem attemptPhase_skipped_zero (f : Option Nat) (attempts : List AttemptResult)
    (dm : Bool) (ms : Option String) :
    (attemptPhase f attempts dm ms).stats.skipped = 0 := by
  unfold attemptPhase
  cases (runAttempts f none attempts).got <;> cases dm <;> cases ms <;> rfl

theorem attemptPhase_not_skipped (f : Option Nat) (attempts : List AttemptResult)
    (dm : Bool) (ms : Option String) :
    (attemptPhase f attempts dm ms).outcome ≠ Outcome.skippedExisting := by
  unfold attemptPhase
  cases (runAttempts f none attempts).got <;> cases dm <;> cases ms <;> simp

theorem attemptPhase_fetches (f : Option Nat) (attempts : List AttemptResult)
    (dm : Bool) (ms : Option String) :
    (attemptPhase f attempts dm ms).fetches = (runAttempts f none attempts).fetches := by
  unfold attemptPhase
  cases (runAttempts f none attempts).got <;> cases dm <;> cases ms <;> rfl

theorem downloadAsset_skip_eq {sz : Nat} {expected : Int} (attempts : List AttemptResult)
    (dm : Bool) (ms : Option String)
    (h : (0 < expected ∧ ((sz : Int) - expected).natAbs < 1000) ∨ 100 < sz) :
    downloadAsset (some sz) expected attempts dm ms =
      ⟨Outcome.skippedExisting, some sz, ⟨0, 1, 0, 0, []⟩, 0⟩ := by
  show (if 0 < expected ∧ ((sz : Int) - expected).natAbs < 1000 then _
    else if 100 < sz then _ else attemptPhase (some sz) attempts dm ms) = _
  by_cases h1 : 0 < expected ∧ ((sz : Int) - expected).natAbs < 1000
  · rw [if_pos h1]
  · rw [if_neg h1]
    rcases h with h | h
    · exact absurd h h1
    · rw [if_pos h]

theorem codeSkipCond_true {sz : Nat} {expected : Int}
    (hs : codeSkipCond (some sz) expected = true) :
    (0 < expected ∧ ((sz : Int) - expected).natAbs < 1000) ∨ 100 < sz := by
  unfold codeSkipCond at hs
  simpa using hs

theorem downloadAsset_not_skip {init : Option Nat} {expected : Int}
    (h : codeSkipCond init expected = false) (attempts : List AttemptResult)
    (dm : Bool) (ms : Option String) :
    downloadAsset init expected attempts dm ms = attemptPhase init attempts dm ms := by
  cases init with
  | none => rfl
  | some sz =>
    unfold codeSkipCond at h
    simp only [Bool.or_eq_false_iff, decide_eq_false_iff_not] at h
    show (if 0 < expected ∧ ((sz : Int) - expected).natAbs < 1000 then _
      else if 100 < sz then _ else attemptPhase (some sz) attempts dm ms) = _
    rw [if_neg h.1, if_neg h.2]

theorem runAttempts_fetches_pos (a : AttemptResult) (rest : List AttemptResult)
    (f : Option Nat) (le : Option String) :
    1 ≤ (runAttempts f le (a :: rest)).fetches := by
  cases a with
  | netError m => simp [runAttempts]
  | writeError w m => simp [runAttempts]
  | completed n =>
    by_cases hn : 0 < n <;> simp [runAttempts, hn]

/-- C7 counterexample: one candidate URL transfers 5 bytes successfully,
but the enabled-by-default metadata save then throws — the outer catch
(aem.js:1357-1363) runs after `downloadedAssets++` (line 1281), so ONE
`downloadAsset` call increments BOTH the downloaded and the failed
counters, and the recorded error is the filesystem error, not an error of
any candidate URL (no URL errored at all). -/
theorem downloadAsset_double_count_cex :
    (downloadAsset none 0 [AttemptResult.completed 5] true
        (some "EACCES: metadata write failed")).stats.downloaded = 1 ∧
    (downloadAsset none 0 [AttemptResult.completed 5] true
        (some "EACCES: metadata write failed")).stats.failedCount = 1 ∧
    (downloadAsset none 0 [AttemptResult.completed 5] true
        (some "EACCES: metadata write failed")).outcome =
      Outcome.failed "EACCES: metadata write failed" ∧
    lastErrorOf [AttemptResult.completed 5] = none := by
  decide

/-- C7 amended: every `downloadAsset` call reaches one terminal outcome.
When the call skips, only the skipped counter is bumped; when every
candidate URL fails, only the failed counter is bumped and the recorded
error is the last error across the candidate URLs (or the generic message
when no URL errored); when a URL transfers successfully and the
metadata-save phase does not fail (metadata disabled, or the save
succeeds), only the downloaded counter is bumped; but when the transfer
succeeds and the enabled metadata save then throws, the call bumps BOTH
the downloaded and the failed counters and records the metadata-save
error as the failure. -/
theorem downloadAsset_outcome_counters (init : Option Nat) (expected : Int)
    (attempts : List AttemptResult) (dm : Bool) (ms : Option String) :
    ((downloadAsset init expected attempts dm ms).stats.skipped = 1 ↔
      codeSkipCond init expected = true) ∧
    (codeSkipCond init expected = false → (runAttempts init none attempts).got = none →
      (downloadAsset init expected attempts dm ms).stats.downloaded = 0 ∧
      (downloadAsset init expected attempts dm ms).stats.skipped = 0 ∧
      (downloadAsset init expected attempts dm ms).stats.failedCount = 1 ∧
      (downloadAsset init expected attempts dm ms).outcome =
        Outcome.failed ((lastErrorOf attempts).getD "All download attempts failed")) ∧
    (∀ n, codeSkipCond init expected = false →
      (runAttempts init none attempts).got = some n → (dm = false ∨ ms = none) →
      (downloadAsset init expected attempts dm ms).stats.downloaded = 1 ∧
      (downloadAsset init expected attempts dm ms).stats.skipped = 0 ∧
      (downloadAsset init expected attempts dm ms).stats.failedCount = 0 ∧
      (downloadAsset init expected attempts dm ms).outcome = Outcome.downloadedOk n) ∧
    (∀ n e, codeSkipCond init expected = false →
      (runAttempts init none attempts).got = some n → dm = true → ms = some e →
      (downloadAsset init expected attempts dm ms).stats.downloaded = 1 ∧
      (downloadAsset init expected attempts dm ms).stats.skipped = 0 ∧
      (downloadAsset init expected attempts dm ms).stats.failedCount = 1 ∧
      (downloadAsset init expected attempts dm ms).outcome = Outcome.failed e) := by
  cases hs : codeSkipCond init expected with
  | false =>
    rw [downloadAsset_not_skip hs attempts dm ms]
    refine ⟨?_, ?_, ?_, ?_⟩
    · rw [attemptPhase_skipped_zero]
      simp
    · intro _ hg
      rw [attemptPhase_got_none hg]
      refine ⟨rfl, rfl, rfl, ?_⟩
      rw [runAttempts_lastErr_init hg]
    · intro n _ hg hok
      rw [attemptPhase_transfer_ok hg hok]
      exact ⟨rfl, rfl, rfl, rfl⟩
    · intro n e _ hg hdm hms
      subst hdm
      subst hms
      rw [attemptPhase_meta_fail hg]
      exact ⟨rfl, rfl, rfl, rfl⟩
  | true =>
    cases init with
    | none => simp [codeSkipCond] at hs
    | some sz =>
      rw [downloadAsset_skip_eq attempts dm ms (codeSkipCond_true hs)]
      refine ⟨by simp, ?_, ?_, ?_⟩
      · intro h
        exact Bool.noConfusion h
      · intro n h
        exact Bool.noConfusion h
      · intro n e h
        exact Bool.noConfusion h

/-- C7 amended witness: a successful 5-byte transfer whose metadata save
succeeds counts exactly one download and nothing else. -/
theorem downloadAsset_outcome_counters_witness :
    (downloadAsset none 0 [AttemptResult.completed 5] true none).stats.downloaded = 1 ∧
    (downloadAsset none 0 [AttemptResult.completed 5] true none).stats.skipped = 0 ∧
    (downloadAsset none 0 [AttemptResult.completed 5] true none).stats.failedCount = 0 ∧
    (downloadAsset none 0 [AttemptResult.completed 5] true none).outcome =
      Outcome.downloadedOk 5 :=
  (downloadAsset_outcome_counters none 0 [AttemptResult.completed 5] true none).2.2.1 5
    (by decide) (by decide) (Or.inr rfl)

/-- C1 counterexample: with a known expected size of 500000 bytes and an
existing file of only 200 bytes (far outside the tolerance), the code still
records a skipped-existing outcome — because the `existingSize > 100` skip
branch is not gated on the expected size being unknown — while the claim's
condition says a network transfer must be attempted. -/
theorem resume_skip_spec_cex :
    (downloadAsset (some 200) 500000 [] true none).outcome = Outcome.skippedExisting ∧
      specSkipCond (some 200) 500000 = false := by
  decide

/-- C1 amended: `downloadAsset` records a skipped-existing outcome and
issues no network fetch exactly when the target file exists and either
(a) the expected size is known (positive) and the existing size is within
1000 bytes of it, or (b) the existing file exceeds 100 bytes — regardless
of whether the expected size is known; in every other case, every supplied
candidate URL leads to at least one network fetch. -/
theorem downloadAsset_skip_iff (init : Option Nat) (expected : Int)
    (attempts : List AttemptResult) (dm : Bool) (ms : Option String) :
    ((downloadAsset init expected attempts dm ms).outcome = Outcome.skippedExisting ↔
      codeSkipCond init expected = true) ∧
    (codeSkipCond init expected = true →
      (downloadAsset init expected attempts dm ms).fetches = 0) ∧
    (codeSkipCond init expected = false → attempts ≠ [] →
      1 ≤ (downloadAsset init expected attempts dm ms).fetches) := by
  cases hs : codeSkipCond init expected with
  | false =>
    rw [downloadAsset_not_skip hs attempts dm ms]
    refine ⟨?_, ?_, ?_⟩
    · constructor
      · intro h
        exact absurd h (attemptPhase_not_skipped init attempts dm ms)
      · intro h
        exact Bool.noConfusion h
    · intro h
      exact Bool.noConfusion h
    · intro _ hne
      rw [attemptPhase_fetches]
      cases attempts with
      | nil => exact absurd rfl hne
      | cons a rest => exact runAttempts_fetches_pos a rest init none
  | true =>
    cases init with
    | none => simp [codeSkipCond] at hs
    | some sz =>
      rw [downloadAsset_skip_eq attempts dm ms (codeSkipCond_true hs)]
      refine ⟨by simp, fun _ => rfl, ?_⟩
      intro h
      exact Bool.noConfusion h

/-- C1 amended witness: the spec's own resume example — an existing file of
245678 bytes with expected size 245678 is skipped. -/
theorem downloadAsset_skip_iff_witness :
    (downloadAsset (some 245678) 245678 [] true none).outcome = Outcome.skippedExisting :=
  (downloadAsset_skip_iff (some 245678) 245678 [] true none).1.mpr (by decide)

theorem runAttempts_append_last_write :
    ∀ (pre : List AttemptResult) (f : Option Nat) (le : Option String) (w : Nat) (m : String),
    0 < w →
    (∀ a ∈ pre, ∀ n, a = AttemptResult.completed n → n = 0) →
    runAttempts f le (pre ++ [AttemptResult.writeError w m]) =
      ⟨some w, some m, none, pre.length + 1⟩ := by
  intro pre
  induction pre with
  | nil =>
    intro f le w m hw _
    have hcz : cleanupZero (some w) = some w := by
      cases w with
      | zero => omega
      | succ k => rfl
    simp [runAttempts, hcz]
  | cons a pre' ih =>
    intro f le w m hw hpre
    have hpre' : ∀ a ∈ pre', ∀ n, a = AttemptResult.completed n → n = 0 :=
      fun a ha => hpre a (List.mem_cons_of_mem _ ha)
    cases a with
    | netError m' =>
      rw [List.cons_append]
      show (⟨_, _, _, (runAttempts (cleanupZero f) (some m')
        (pre' ++ [AttemptResult.writeError w m])).fetches + 1⟩ : AttemptsOutcome) = _
      rw [ih (cleanupZero f) (some m') w m hw hpre']
      simp [List.length_cons]
    | writeError w' m' =>
      rw [List.cons_append]
      show (⟨_, _, _, (runAttempts (cleanupZero (some w')) (some m')
        (pre' ++ [AttemptResult.writeError w m])).fetches + 1⟩ : AttemptsOutcome) = _
      rw [ih (cleanupZero (some w')) (some m') w m hw hpre']
      simp [List.length_cons]
    | completed n =>
      have hn : n = 0 := hpre _ (List.mem_cons_self _ _) n rfl
      subst hn
      rw [List.cons_append]
      have hstep : runAttempts f le (AttemptResult.completed 0 ::
          (pre' ++ [AttemptResult.writeError w m])) =
          ⟨(runAttempts (some 0) le (pre' ++ [AttemptResult.writeError w m])).file,
            (runAttempts (some 0) le (pre' ++ [AttemptResult.writeError w m])).lastErr,
            (runAttempts (some 0) le (pre' ++ [AttemptResult.writeError w m])).got,
            (runAttempts (some 0) le (pre' ++ [AttemptResult.writeError w m])).fetches + 1⟩ := by
        simp [runAttempts]
      rw [hstep, ih (some 0) le w m hw hpre']
      simp [List.length_cons]

/-- C10: in the candidate-URL loop of `downloadAsset`, the output file left
by a failed attempt is deleted iff it exists with size exactly zero (a
non-empty partial file is never deleted); consequently, when the last
candidate URL fails after writing `w > 0` bytes and no earlier URL produced
a non-empty transfer, the asset is recorded as failed with that attempt's
error while the non-empty partial file of `w` bytes remains at the target
path. -/
theorem downloadAsset_partial_file :
    (∀ s : Nat, (cleanupZero (some s) = none ↔ s = 0) ∧
      (0 < s → cleanupZero (some s) = some s)) ∧
    (∀ (init : Option Nat) (expected : Int) (pre : List AttemptResult) (w : Nat) (m : String)
      (dm : Bool) (ms : Option String),
      0 < w →
      (∀ a ∈ pre, ∀ n, a = AttemptResult.completed n → n = 0) →
      codeSkipCond init expected = false →
      (downloadAsset init expected (pre ++ [AttemptResult.writeError w m]) dm ms).outcome =
          Outcome.failed m ∧
        (downloadAsset init expected (pre ++ [AttemptResult.writeError w m]) dm ms).file =
          some w) := by
  constructor
  · intro s
    constructor
    · cases s with
      | zero => simp [cleanupZero]
      | succ k => simp [cleanupZero]
    · intro hs
      cases s with
      | zero => omega
      | succ k => rfl
  · intro init expected pre w m dm ms hw hpre hskip
    rw [downloadAsset_not_skip hskip]
    unfold attemptPhase
    rw [runAttempts_append_last_write pre init none w m hw hpre]
    exact ⟨rfl, rfl⟩

/-- C10 witness: a first URL failing before any write followed by a second
URL failing after writing 7 bytes leaves a failed outcome with the 7-byte
partial file still on disk. -/
theorem downloadAsset_partial_file_witness :
    (downloadAsset none 0
        ([AttemptResult.netError "e1"] ++ [AttemptResult.writeError 7 "e2"]) true none).outcome =
      Outcome.failed "e2" ∧
    (downloadAsset none 0
        ([AttemptResult.netError "e1"] ++ [AttemptResult.writeError 7 "e2"]) true none).file =
      some 7 :=
  downloadAsset_partial_file.2 none 0 [AttemptResult.netError "e1"] 7 "e2" true none (by decide)
    (by
      intro a ha n hn
      simp only [List.mem_singleton] at ha
      subst ha
      cases hn)
    (by decide)

/-- State of the `downloadAllAssets` driver (aem.js lines 1187-1220):
how many assets remain in the pending `queue` and how many download
promises are in the `inProgress` set. -/
structure PoolState where
  queue : Nat
  inflight : Nat
deriving DecidableEq

/-- The inner launch loop (aem.js lines 1193-1199): while the in-flight set
is below the configured width and the queue is non-empty, dequeue one asset
and launch its download. -/
def fillGo (n : Nat) : Nat → Nat → PoolState
  | 0, f => ⟨0, f⟩
  | q + 1, f => if f < n then fillGo n q (f + 1) else ⟨q + 1, f⟩

/-- The launch loop applied to a driver state. -/
def fill (n : Nat) (s : PoolState) : PoolState :=
  fillGo n s.queue s.inflight

/-- One iteration of the outer driver loop: launch up to capacity, then
`Promise.race` — at least one of the in-flight downloads completes (and
its `then` handler removes it from the in-flight set) before the next
iteration (aem.js lines 1191-1220). -/
inductive DriverStep (n : Nat) (s t : PoolState) : Prop where
  | mk (c : Nat) (h1 : 1 ≤ c) (h2 : c ≤ (fill n s).inflight)
      (ht : t = ⟨(fill n s).queue, (fill n s).inflight - c⟩)

theorem fillGo_inflight_le (n : Nat) :
    ∀ (q f : Nat), f ≤ n → (fillGo n q f).inflight ≤ n := by
  intro q
  induction q with
  | zero => intro f hf; exact hf
  | succ k ih =>
    intro f hf
    by_cases hlt : f < n
    · rw [show fillGo n (k + 1) f = fillGo n k (f + 1) by simp [fillGo, hlt]]
      exact ih (f + 1) hlt
    · rw [show fillGo n (k + 1) f = ⟨k + 1, f⟩ by simp [fillGo, hlt]]
      exact hf

theorem fillGo_post (n : Nat) :
    ∀ (q f : Nat), f ≤ n → (fillGo n q f).queue = 0 ∨ (fillGo n q f).inflight = n := by
  intro q
  induction q with
  | zero => intro f _; exact Or.inl rfl
  | succ k ih =>
    intro f hf
    by_cases hlt : f < n
    · rw [show fillGo n (k + 1) f = fillGo n k (f + 1) by simp [fillGo, hlt]]
      exact ih (f + 1) hlt
    · rw [show fillGo n (k + 1) f = ⟨k + 1, f⟩ by simp [fillGo, hlt]]
      exact Or.inr (show f = n by omega)

/-- C6: bounded concurrency in `downloadAllAssets` — starting from any
pending queue with nothing in flight, every reachable driver state keeps
the in-flight set within the configured width `n`, both after completions
and at the high-water mark right after the launch loop; and the launch
loop never idles: it stops only with an empty pending queue or a full
in-flight set. -/
theorem downloadPool_bounded :
    (∀ (n q : Nat) (s : PoolState),
      Relation.ReflTransGen (DriverStep n) ⟨q, 0⟩ s →
      s.inflight ≤ n ∧ (fill n s).inflight ≤ n) ∧
    (∀ (n : Nat) (s : PoolState), s.inflight ≤ n →
      (fill n s).queue = 0 ∨ (fill n s).inflight = n) := by
  constructor
  · intro n q s h
    induction h with
    | refl =>
      exact ⟨Nat.zero_le n, fillGo_inflight_le n q 0 (Nat.zero_le n)⟩
    | tail hprev step ih =>
      obtain ⟨c, h1, h2, ht⟩ := step
      subst ht
      have hb : (fill n _).inflight ≤ n := ih.2
      refine ⟨by simpa using Nat.le_trans (Nat.sub_le _ _) hb, ?_⟩
      exact fillGo_inflight_le n _ _ (Nat.le_trans (Nat.sub_le _ _) hb)
  · intro n s hs
    exact fillGo_post n s.queue s.inflight hs

/-- C6 witness: with width 3 and 10 pending assets, the state after one
driver iteration (3 launched, 1 completed) respects the bound, and the
launch loop from the initial state stops exactly at full capacity. -/
theorem downloadPool_bounded_witness :
    ((⟨7, 2⟩ : PoolState).inflight ≤ 3 ∧ (fill 3 ⟨7, 2⟩).inflight ≤ 3) ∧
      ((fill 3 ⟨10, 0⟩).queue = 0 ∨ (fill 3 ⟨10, 0⟩).inflight = 3) :=
  ⟨downloadPool_bounded.1 3 10 ⟨7, 2⟩
      (Relation.ReflTransGen.single (DriverStep.mk 1 (by decide) (by decide) (by decide))),
    downloadPool_bounded.2 3 ⟨10, 0⟩ (by decide)⟩

end Aem
